import Mathlib

/-!
# Verification of the gifcm animated-figure library

A shallow embedding of `src/gifcm/animated_figure.py` (package layout
`src/src/gifcm/animated_figure.py`): an `AnimatedFigure` wraps a matplotlib
figure, a `Frame` context manager rasterizes the figure on scope exit and
appends the pixel array to the figure's frame list, and `save_gif` /
`_save_frames_to_gif` validates the frames, quantizes them jointly through
`_quantize_frames`, and writes an animated GIF.

Numpy arrays are embedded as a shape list together with row-major flat data.
The external collaborators (matplotlib rendering, PIL quantization and GIF
encoding) are modelled from the spec at their interface boundaries; every
line of control flow of the repository's own code is translated directly.
-/

set_option autoImplicit false

namespace Gifcm

/-- A numpy `ndarray` of 8-bit pixels: its shape and its row-major flat data. -/
structure NDArray where
  shape : List Nat
  data : List Nat
deriving Repr, DecidableEq, Inhabited

/-- `ndarray.ndim`: the number of axes, i.e. the length of the shape tuple. -/
def NDArray.ndim (a : NDArray) : Nat := a.shape.length

/-- One drawing operation placed on the matplotlib figure by the caller.
The caller may draw grayscale, RGB or RGBA content. -/
inductive DrawOp where
  | gray (v : Nat)
  | rgb (r g b : Nat)
  | rgba (r g b a : Nat)
deriving Repr, DecidableEq

/-- The drawable content currently on a matplotlib figure, abstracted as the
ordered list of drawing operations the caller has issued since the last
clear. -/
abbrev FigContent := List DrawOp

/-- Modelled from the spec: `figure.clf()`, the external surface's
clear-content operation, which "clears all drawn content from the bound
surface". -/
def clf (_fig : FigContent) : FigContent := []

/-- An 8-bit channel value contributed by one drawing operation. -/
def DrawOp.pixelValue : DrawOp → Nat
  | .gray v => v % 256
  | .rgb r g b => (r + g + b) % 256
  | .rgba r g b a => (r + g + b + a) % 256

/-- Modelled from the spec: `_save_figure_to_array`, whose body is the
external rasterization boundary (`figure.savefig(..., format="png")`
followed by `Image.open` / `onp.asarray`).  The spec describes this boundary
as "a rasterize-to-pixel-array operation yielding an (rows, cols, channels)
8-bit array cropped to the surface's current tight visual bounds": the
height and width depend on the drawn content's extent, the channel axis is
always present (matplotlib renders every figure — grayscale, RGB or RGBA
content alike — to an RGBA raster), and every sample fits in 8 bits. -/
def _save_figure_to_array (fig : FigContent) : NDArray :=
  let hgt := fig.length + 1
  let wd := (fig.map DrawOp.pixelValue).sum % 7 + 1
  let v := (fig.map DrawOp.pixelValue).sum % 256
  { shape := [hgt, wd, 4], data := List.replicate (hgt * wd * 4) v }

/-- The state owned by one `AnimatedFigure`: the wrapped matplotlib figure
(`self.figure`, externally mutable drawn content) and the ordered list of
captured frames (`self.frames`). -/
structure AnimState where
  figure : FigContent
  frames : List NDArray
deriving Repr, DecidableEq, Inhabited

/-- The `Frame` context manager.  In Python it also stores a back-reference
to the owning `AnimatedFigure`; here that buffer is threaded explicitly as
`AnimState`, so only the `clear_figure` flag remains in the value. -/
structure Frame where
  clear_figure : Bool
deriving Repr, DecidableEq

/-- `AnimatedFigure.frame`: returns a new `Frame` context manager bound to
this buffer.  It constructs the `Frame` object and touches nothing else, so
the state is returned unchanged. -/
def AnimatedFigure.frame (s : AnimState) (clear_figure : Bool := true) :
    Frame × AnimState :=
  ({ clear_figure := clear_figure }, s)

/-- `Frame.__enter__`: if `clear_figure` is set, clear the wrapped figure. -/
def Frame.enter (fr : Frame) (s : AnimState) : AnimState :=
  if fr.clear_figure then { s with figure := clf s.figure } else s

/-- `Frame.__exit__`: rasterize the current figure content and append the
resulting array to the frame list.  It returns `None`, so it never
suppresses an exception raised in the `with` body. -/
def Frame.exit (s : AnimState) : AnimState :=
  { s with frames := s.frames ++ [_save_figure_to_array s.figure] }

/-- One full `with animated_figure.frame(...):` block.  The caller's body
mutates the figure content arbitrarily and either finishes normally
(`Except.ok`) or raises (`Except.error`); Python runs `__exit__`
unconditionally and then re-raises the body's exception. -/
def Frame.use {E : Type} (fr : Frame)
    (body : FigContent → Except E Unit × FigContent) (s : AnimState) :
    Except E Unit × AnimState :=
  let s1 := fr.enter s
  let (r, fig2) := body s1.figure
  (r, Frame.exit { s1 with figure := fig2 })

/-- Splits a flat list into `count` consecutive pixels of `channels`
samples each (row-major pixel extraction from flat array data). -/
def toPixelsN (channels : Nat) : Nat → List Nat → List (List Nat)
  | 0, _ => []
  | count + 1, l => l.take channels :: toPixelsN channels count (l.drop channels)

/-- First-occurrence deduplication of a list of colors, preserving the order
in which colors first appear. -/
def dedupColors (ps : List (List Nat)) : List (List Nat) :=
  ps.foldl (fun acc p => if p ∈ acc then acc else acc ++ [p]) []

/-- L1 distance between two colors, channelwise. -/
def colorDist (p q : List Nat) : Nat :=
  (List.zipWith (fun a b => (a - b) + (b - a)) p q).sum

/-- The index of the palette entry nearest to color `p` (first such index on
ties): nearest-color mapping with no dithering, since the chosen index is a
function of the single pixel's color alone. -/
def nearestIdx (pal : List (List Nat)) (p : List Nat) : Nat :=
  match pal with
  | [] => 0
  | q :: rest =>
      (rest.foldl
        (fun acc r =>
          if colorDist p r < acc.2.1 then (acc.2.2, colorDist p r, acc.2.2 + 1)
          else (acc.1, acc.2.1, acc.2.2 + 1))
        ((0 : Nat), colorDist p q, (1 : Nat))).1

/-- Modelled from the spec: `PIL.Image.quantize(colors=256, dither=0)`, the
external codec's single joint color-quantization pass.  The spec describes
it as "producing at most 256 representative colors (palette) and, for the
composite, a per-pixel palette-index map.  No dithering is applied
(nearest-color mapping only)".  The palette is the first at most 256
distinct colors of the image in scan order; the index map has the input's
(rows, cols) dimensions and sends every pixel to the nearest palette
entry. -/
def quantizeModel (a : NDArray) : NDArray × List (List Nat) :=
  let channels := a.shape.getLastD 0
  let count := a.shape.dropLast.foldl (· * ·) 1
  let px := toPixelsN channels count a.data
  let pal := (dedupColors px).take 256
  ({ shape := a.shape.dropLast, data := px.map (nearestIdx pal) }, pal)

/-- `onp.concatenate(frames)`: row-axis (axis 0) concatenation.  For arrays
sharing their trailing dimensions this concatenates the row-major flat data
and sums the leading dimension. -/
def concatenateFrames (frames : List NDArray) : NDArray :=
  { shape := (frames.map (fun f => f.shape.headD 0)).sum
        :: (frames.headD default).shape.tail,
    data := (frames.map NDArray.data).flatten }

/-- `onp.split(arr, n)`: split into `n` equal consecutive blocks along
axis 0. -/
def splitFrames (a : NDArray) (n : Nat) : List NDArray :=
  let hgt := a.shape.headD 0 / n
  let rowSize := a.shape.tail.foldl (· * ·) 1
  (List.range n).map (fun i =>
    { shape := hgt :: a.shape.tail,
      data := (a.data.drop (i * (hgt * rowSize))).take (hgt * rowSize) })

/-- `_quantize_frames`: concatenate all frames along the row axis, quantize
the composite once, split the quantized index map back into
`len(frames)` parts, and return them with the flat palette
(`quantized.getpalette()` flattens the palette colors). -/
def _quantize_frames (frames : List NDArray) : List NDArray × List Nat :=
  let merged := concatenateFrames frames
  let qp := quantizeModel merged
  (splitFrames qp.1 frames.length, qp.2.flatten)

/-- Python's `str.endswith(post)`: the case-sensitive suffix test, embedded
structurally over the character lists of the two strings. -/
def strEndsWith (s post : String) : Bool :=
  List.isSuffixOf post.toList s.toList

/-- The validation failures `_save_frames_to_gif` raises (each a Python
`ValueError` whose message carries the listed detail). -/
inductive SaveError where
  /-- "At least one frame is required." -/
  | emptyAnimation
  /-- "Frames must be rank-3, but first frame had shape ...". -/
  | invalidFrameRank (shape : List Nat)
  /-- "All frames must have the same shape, but got shapes ...". -/
  | inconsistentFrameShape (shapes : List (List Nat))
  /-- "Valid `gif_path` must end in '.gif', but got ...". -/
  | invalidDestinationPath (gif_path : String)
  /-- The `image, *images = ...` unpacking failure on an empty iterator
  (unreachable, since quantization preserves the frame count). -/
  | unpackEmpty
deriving Repr, DecidableEq

deriving instance DecidableEq for Except

/-- The animated GIF file written by `image.save(gif_path, save_all=True,
append_images=images, duration=..., loop=..., palette=...)`: the first
quantized frame is the base image, the rest are appended frames. -/
structure GifFile where
  gif_path : String
  base : NDArray
  appended : List NDArray
  duration : Nat
  loop : Nat
  palette : List Nat
deriving Repr, DecidableEq

/-- `_save_frames_to_gif`: validate the frames and destination path in the
source's order, then quantize and write the animated GIF.  An `Except.error`
result is a raised `ValueError` before any file output; `Except.ok` is the
written file. -/
def _save_frames_to_gif (frames : List NDArray) (gif_path : String)
    (duration : Nat) (loop : Nat) : Except SaveError GifFile :=
  if frames.length = 0 then
    .error .emptyAnimation
  else if (frames.headD default).ndim ≠ 3 then
    .error (.invalidFrameRank (frames.headD default).shape)
  else if ¬ (∀ f ∈ frames, f.shape = (frames.headD default).shape) then
    .error (.inconsistentFrameShape (frames.map NDArray.shape))
  else if ¬ (strEndsWith gif_path ".gif" = true) then
    .error (.invalidDestinationPath gif_path)
  else
    match _quantize_frames frames with
    | (image :: images, palette) =>
        .ok { gif_path := gif_path, base := image, appended := images,
              duration := duration, loop := loop, palette := palette }
    | ([], _) => .error .unpackEmpty

/-- `AnimatedFigure.save_gif`: delegates to `_save_frames_to_gif` on
`self.frames` and mutates neither the frame list nor the figure. -/
def AnimatedFigure.save_gif (s : AnimState) (gif_path : String)
    (duration : Nat := 100) (loop : Nat := 0) :
    Except SaveError GifFile × AnimState :=
  (_save_frames_to_gif s.frames gif_path duration loop, s)

/-! ## Helper lemmas about the capture scope -/

theorem Frame.enter_frames (fr : Frame) (s : AnimState) :
    (fr.enter s).frames = s.frames := by
  unfold Frame.enter
  split <;> rfl

theorem Frame.use_eq {E : Type} (fr : Frame)
    (body : FigContent → Except E Unit × FigContent) (s : AnimState) :
    fr.use body s
      = ((body (fr.enter s).figure).1,
         Frame.exit
           { fr.enter s with figure := (body (fr.enter s).figure).2 }) :=
  rfl

theorem Frame.use_frames {E : Type} (fr : Frame)
    (body : FigContent → Except E Unit × FigContent) (s : AnimState) :
    ((fr.use body s).2).frames
      = s.frames ++ [_save_figure_to_array ((body (fr.enter s).figure).2)] := by
  rw [Frame.use_eq]
  show (Frame.exit _).frames = _
  unfold Frame.exit
  show (fr.enter s).frames ++ _ = _
  rw [Frame.enter_frames]

/-! ## Claim theorems -/

/-- C2: with zero captured frames, `save` fails with the `EmptyAnimation`
error (the "At least one frame is required." `ValueError`) and returns no
written file, whatever the destination path, duration and loop arguments
are. -/
theorem save_empty_frames (gif_path : String) (duration loop : Nat) :
    _save_frames_to_gif [] gif_path duration loop
      = .error .emptyAnimation := rfl

/-- C4: on scope exit — whether the caller's body returned normally or
raised — exactly one rasterized frame is appended at the end of the buffer's
frame sequence, and the body's outcome (in particular any exception) is
propagated unchanged to the caller. -/
theorem frame_exit_always_appends {E : Type} (fr : Frame)
    (body : FigContent → Except E Unit × FigContent) (s : AnimState) :
    ((fr.use body s).2).frames
        = s.frames ++ [_save_figure_to_array ((body (fr.enter s).figure).2)]
      ∧ (fr.use body s).1 = (body (fr.enter s).figure).1 :=
  ⟨Frame.use_frames fr body s, by rw [Frame.use_eq]⟩

/-- C7: the frame sequence is append-only across the whole API:
constructing a capture scope leaves the state unchanged, scope entry leaves
the frame list unchanged, a complete capture appends exactly one frame at
the end, and `save_gif` — succeed or fail — returns the state (frames and
wrapped figure alike) unchanged. -/
theorem frames_append_only (s : AnimState) :
    (∀ cf : Bool, (AnimatedFigure.frame s cf).2 = s)
      ∧ (∀ fr : Frame, (fr.enter s).frames = s.frames)
      ∧ (∀ (E : Type) (fr : Frame)
          (body : FigContent → Except E Unit × FigContent),
          ∃ a, ((fr.use body s).2).frames = s.frames ++ [a])
      ∧ (∀ (gif_path : String) (duration loop : Nat),
          (AnimatedFigure.save_gif s gif_path duration loop).2 = s) :=
  ⟨fun _ => rfl,
   fun fr => Frame.enter_frames fr s,
   fun _ fr body => ⟨_, Frame.use_frames fr body s⟩,
   fun _ _ _ => rfl⟩

/-- C8: on scope entry the figure's drawn content is cleared exactly when
the `clear_figure` flag is set (otherwise it is left intact), clearing
really empties the content, entry never touches the frame list, and
constructing the scope with `AnimatedFigure.frame` mutates neither the
frame list nor the figure. -/
theorem frame_enter_clear (s : AnimState) (cf : Bool) :
    ((AnimatedFigure.frame s cf).1.enter s).figure
        = (if cf then clf s.figure else s.figure)
      ∧ clf s.figure = []
      ∧ ((AnimatedFigure.frame s cf).1.enter s).frames = s.frames
      ∧ (AnimatedFigure.frame s cf).2 = s := by
  refine ⟨?_, rfl, Frame.enter_frames _ s, rfl⟩
  unfold AnimatedFigure.frame Frame.enter
  cases cf <;> rfl

/-- C9 counterexample: a single capture-scope object is not single-use.
Re-using the very scope returned by `AnimatedFigure.frame` for a second
enter/exit round raises no error and appends a second frame, so a scope can
be entered again and can append more than one frame. -/
theorem scope_reuse_counterexample :
    ((((AnimatedFigure.frame { figure := [DrawOp.gray 5], frames := [] }
          true).1.use (fun f => ((Except.ok () : Except Unit Unit), f))
        { figure := [DrawOp.gray 5], frames := [] }).2).frames.length = 1)
    ∧ (((AnimatedFigure.frame { figure := [DrawOp.gray 5], frames := [] }
          true).1.use (fun f => ((Except.ok () : Except Unit Unit), f))
        (((AnimatedFigure.frame { figure := [DrawOp.gray 5], frames := [] }
            true).1.use (fun f => ((Except.ok () : Except Unit Unit), f))
          { figure := [DrawOp.gray 5], frames := [] }).2)).1 = Except.ok ())
    ∧ ((((AnimatedFigure.frame { figure := [DrawOp.gray 5], frames := [] }
          true).1.use (fun f => ((Except.ok () : Except Unit Unit), f))
        (((AnimatedFigure.frame { figure := [DrawOp.gray 5], frames := [] }
            true).1.use (fun f => ((Except.ok () : Except Unit Unit), f))
          { figure := [DrawOp.gray 5], frames := [] }).2)).2).frames.length
        = 2) := by
  refine ⟨rfl, rfl, rfl⟩

/-- C9 (amended): a capture scope carries no open/closed state and is not
single-use: every enter/exit round of a scope appends exactly one frame, so
re-using the same scope value for a second round appends a second frame
rather than failing. -/
theorem scope_reuse_appends {E : Type} (fr : Frame)
    (body : FigContent → Except E Unit × FigContent) (s : AnimState) :
    ((fr.use body s).2).frames.length = s.frames.length + 1
      ∧ ((fr.use body ((fr.use body s).2)).2).frames.length
          = s.frames.length + 2 := by
  constructor
  · rw [Frame.use_frames]
    simp
  · rw [Frame.use_frames, Frame.use_frames]
    simp

/-- C10: every rasterized frame is a rank-3 8-bit array laid out as
(height, width, channels) with the channel axis present — for grayscale,
RGB and RGBA figure content alike, since `fig` ranges over arbitrary
content. -/
theorem rasterized_frame_rank3 (fig : FigContent) :
    (_save_figure_to_array fig).ndim = 3
      ∧ (∃ hgt wd ch, (_save_figure_to_array fig).shape = [hgt, wd, ch]
          ∧ 0 < ch)
      ∧ ∀ x ∈ (_save_figure_to_array fig).data, x < 256 := by
  refine ⟨rfl, ⟨fig.length + 1, _, 4, rfl, by omega⟩, ?_⟩
  intro x hx
  unfold _save_figure_to_array at hx
  have := List.eq_of_mem_replicate hx
  subst this
  exact Nat.mod_lt _ (by omega)

theorem quantize_frames_length (frames : List NDArray) :
    (_quantize_frames frames).1.length = frames.length := by
  unfold _quantize_frames splitFrames
  simp

/-- C1: for N ≥ 1 captured frames sharing one rank-3 shape and a
destination path ending in `.gif`, `save` succeeds and the written GIF
holds exactly N frames: the first quantized frame as the base image and the
remaining N − 1 quantized frames appended in capture order. -/
theorem save_ok_frame_count (frames : List NDArray) (gif_path : String)
    (duration loop : Nat)
    (hne : frames ≠ [])
    (hrank : (frames.headD default).ndim = 3)
    (hsh : ∀ f ∈ frames, f.shape = (frames.headD default).shape)
    (hpath : strEndsWith gif_path ".gif" = true) :
    ∃ g : GifFile,
      _save_frames_to_gif frames gif_path duration loop = Except.ok g
        ∧ g.base :: g.appended = (_quantize_frames frames).1
        ∧ (g.base :: g.appended).length = frames.length
        ∧ g.gif_path = gif_path ∧ g.duration = duration ∧ g.loop = loop := by
  have hlen : ¬ frames.length = 0 := fun h =>
    hne (List.length_eq_zero.mp h)
  have hq : (_quantize_frames frames).1.length = frames.length :=
    quantize_frames_length frames
  unfold _save_frames_to_gif
  rw [if_neg hlen, if_neg (not_not_intro hrank), if_neg (not_not_intro hsh),
    if_neg (not_not_intro hpath)]
  rcases hqf : _quantize_frames frames with ⟨qs, pal⟩
  rw [hqf] at hq
  cases qs with
  | nil => exact absurd hq.symm hlen
  | cons im ims =>
      exact ⟨_, rfl, rfl, by simpa using hq, rfl, rfl, rfl⟩

/-- C1 witness: two 1×1×3 frames saved to `anim.gif` succeed with a
two-frame GIF. -/
theorem save_ok_frame_count_witness :
    (([⟨[1, 1, 3], [0, 0, 0]⟩, ⟨[1, 1, 3], [10, 20, 30]⟩] : List NDArray)
        ≠ [])
    ∧ ((([⟨[1, 1, 3], [0, 0, 0]⟩,
          ⟨[1, 1, 3], [10, 20, 30]⟩] : List NDArray).headD default).ndim = 3)
    ∧ (∀ f ∈ ([⟨[1, 1, 3], [0, 0, 0]⟩,
          ⟨[1, 1, 3], [10, 20, 30]⟩] : List NDArray),
        f.shape = (([⟨[1, 1, 3], [0, 0, 0]⟩,
          ⟨[1, 1, 3], [10, 20, 30]⟩] : List NDArray).headD default).shape)
    ∧ (strEndsWith "anim.gif" ".gif" = true)
    ∧ (∃ g : GifFile,
        _save_frames_to_gif
            [⟨[1, 1, 3], [0, 0, 0]⟩, ⟨[1, 1, 3], [10, 20, 30]⟩]
            "anim.gif" 100 0 = Except.ok g
          ∧ g.base :: g.appended
              = (_quantize_frames
                  [⟨[1, 1, 3], [0, 0, 0]⟩, ⟨[1, 1, 3], [10, 20, 30]⟩]).1
          ∧ (g.base :: g.appended).length
              = ([⟨[1, 1, 3], [0, 0, 0]⟩,
                  ⟨[1, 1, 3], [10, 20, 30]⟩] : List NDArray).length
          ∧ g.gif_path = "anim.gif" ∧ g.duration = 100 ∧ g.loop = 0) :=
  ⟨by decide, by decide, by decide, by decide,
   save_ok_frame_count
     [⟨[1, 1, 3], [0, 0, 0]⟩, ⟨[1, 1, 3], [10, 20, 30]⟩] "anim.gif" 100 0
     (by decide) (by decide) (by decide) (by decide)⟩

/-- C3: when the first captured frame has a rank-3 (rows, cols, channels)
shape and some captured frame's shape differs from it, `save` fails with the
`InconsistentFrameShape` error, whose detail lists every frame's shape
(including the mismatched ones), and no file is written. -/
theorem save_inconsistent_shapes (frames : List NDArray) (gif_path : String)
    (duration loop : Nat)
    (hne : frames ≠ [])
    (hrank : (frames.headD default).ndim = 3)
    (hbad : ∃ f ∈ frames, f.shape ≠ (frames.headD default).shape) :
    _save_frames_to_gif frames gif_path duration loop
      = .error (.inconsistentFrameShape (frames.map NDArray.shape)) := by
  have hlen : ¬ frames.length = 0 := fun h =>
    hne (List.length_eq_zero.mp h)
  unfold _save_frames_to_gif
  rw [if_neg hlen, if_neg (not_not_intro hrank), if_pos]
  intro hall
  rcases hbad with ⟨f, hf, hfs⟩
  exact hfs (hall f hf)

/-- C3 witness: frames of shapes 5×5×3 and 5×6×3 fail with
`InconsistentFrameShape` reporting both shapes. -/
theorem save_inconsistent_shapes_witness :
    (([⟨[5, 5, 3], []⟩, ⟨[5, 6, 3], []⟩] : List NDArray) ≠ [])
    ∧ ((([⟨[5, 5, 3], []⟩,
          ⟨[5, 6, 3], []⟩] : List NDArray).headD default).ndim = 3)
    ∧ (∃ f ∈ ([⟨[5, 5, 3], []⟩, ⟨[5, 6, 3], []⟩] : List NDArray),
        f.shape ≠ (([⟨[5, 5, 3], []⟩,
          ⟨[5, 6, 3], []⟩] : List NDArray).headD default).shape)
    ∧ _save_frames_to_gif [⟨[5, 5, 3], []⟩, ⟨[5, 6, 3], []⟩] "anim.gif" 100 0
        = .error (.inconsistentFrameShape [[5, 5, 3], [5, 6, 3]]) :=
  ⟨by decide, by decide, by decide,
   save_inconsistent_shapes [⟨[5, 5, 3], []⟩, ⟨[5, 6, 3], []⟩] "anim.gif"
     100 0 (by decide) (by decide) (by decide)⟩

/-- C6 counterexample: the rank validation precedes the destination-path
validation, so a non-empty, trivially shape-consistent sequence whose lone
frame is rank-2, saved to `anim.png`, fails with `InvalidFrameRank` — not
with `InvalidDestinationPath` as the claim states. -/
theorem save_path_after_rank_counterexample :
    (∀ f ∈ ([⟨[5, 5], []⟩] : List NDArray),
        f.shape = (([⟨[5, 5], []⟩] : List NDArray).headD default).shape)
    ∧ strEndsWith "anim.png" ".gif" = false
    ∧ _save_frames_to_gif [⟨[5, 5], []⟩] "anim.png" 100 0
        = .error (.invalidFrameRank [5, 5])
    ∧ _save_frames_to_gif [⟨[5, 5], []⟩] "anim.png" 100 0
        ≠ .error (.invalidDestinationPath "anim.png") := by
  refine ⟨by decide, by decide, by decide, by decide⟩

/-- C6 (amended): for every non-empty, shape-consistent frame sequence
whose first frame is rank-3, and every destination path that does not end
with the case-sensitive literal suffix `.gif`, `save` fails with the
`InvalidDestinationPath` error before performing any quantization or file
output. -/
theorem save_invalid_path (frames : List NDArray) (gif_path : String)
    (duration loop : Nat)
    (hne : frames ≠ [])
    (hrank : (frames.headD default).ndim = 3)
    (hsh : ∀ f ∈ frames, f.shape = (frames.headD default).shape)
    (hpath : strEndsWith gif_path ".gif" = false) :
    _save_frames_to_gif frames gif_path duration loop
      = .error (.invalidDestinationPath gif_path) := by
  have hlen : ¬ frames.length = 0 := fun h =>
    hne (List.length_eq_zero.mp h)
  unfold _save_frames_to_gif
  rw [if_neg hlen, if_neg (not_not_intro hrank), if_neg (not_not_intro hsh),
    if_pos]
  simp [hpath]

/-- C6 witness: one 5×5×3 frame saved to `anim.png` fails with
`InvalidDestinationPath`. -/
theorem save_invalid_path_witness :
    (([⟨[5, 5, 3], []⟩] : List NDArray) ≠ [])
    ∧ ((([⟨[5, 5, 3], []⟩] : List NDArray).headD default).ndim = 3)
    ∧ (∀ f ∈ ([⟨[5, 5, 3], []⟩] : List NDArray),
        f.shape = (([⟨[5, 5, 3], []⟩] : List NDArray).headD default).shape)
    ∧ strEndsWith "anim.png" ".gif" = false
    ∧ _save_frames_to_gif [⟨[5, 5, 3], []⟩] "anim.png" 100 0
        = .error (.invalidDestinationPath "anim.png") :=
  ⟨by decide, by decide, by decide, by decide,
   save_invalid_path [⟨[5, 5, 3], []⟩] "anim.png" 100 0
     (by decide) (by decide) (by decide) (by decide)⟩

/-- C5 counterexample: the split index maps do not keep each frame's full
original (rows, cols, channels) shape — the channel axis is gone.  For the
single frame of shape 1×1×3, the split quantized frame has shape
`[1, 1]`, not `[1, 1, 3]`. -/
theorem quantize_shape_counterexample :
    ((_quantize_frames [⟨[1, 1, 3], [7, 7, 7]⟩]).1.headD default).shape
        ≠ [1, 1, 3]
    ∧ ((_quantize_frames [⟨[1, 1, 3], [7, 7, 7]⟩]).1.headD default).shape
        = [1, 1] := by
  refine ⟨by decide, by decide⟩

/-! ## Pixel-chunking lemmas for the joint quantization -/

theorem toPixelsN_length (c m : Nat) (l : List Nat) :
    (toPixelsN c m l).length = m := by
  induction m generalizing l with
  | zero => rfl
  | succ k ih => simp [toPixelsN, ih]

theorem toPixelsN_add (c m n : Nat) (l : List Nat) :
    toPixelsN c (m + n) l
      = toPixelsN c m l ++ toPixelsN c n (l.drop (m * c)) := by
  induction m generalizing l with
  | zero => simp [toPixelsN]
  | succ k ih =>
      have h1 : k + 1 + n = (k + n) + 1 := by omega
      have h2 : c + k * c = (k + 1) * c := by ring
      rw [h1]
      show l.take c :: toPixelsN c (k + n) (l.drop c) = _
      rw [ih (l.drop c), List.drop_drop, h2]
      rfl

theorem toPixelsN_append (c m : Nat) (l1 l2 : List Nat)
    (h : l1.length = m * c) :
    toPixelsN c m (l1 ++ l2) = toPixelsN c m l1 := by
  induction m generalizing l1 with
  | zero => rfl
  | succ k ih =>
      have hc : c ≤ l1.length := by rw [h, Nat.succ_mul]; omega
      show (l1 ++ l2).take c :: toPixelsN c k ((l1 ++ l2).drop c)
          = l1.take c :: toPixelsN c k (l1.drop c)
      rw [List.take_append_of_le_length hc,
        List.drop_append_of_le_length hc,
        ih (l1.drop c) (by rw [List.length_drop, h, Nat.succ_mul]; omega)]

theorem toPixelsN_flatten (c k : Nat) (L : List (List Nat))
    (h : ∀ d ∈ L, d.length = k * c) :
    toPixelsN c (L.length * k) L.flatten
      = (L.map (toPixelsN c k)).flatten := by
  induction L with
  | nil => simp [toPixelsN]
  | cons d L ih =>
      have hd : d.length = k * c := h d (List.mem_cons_self d L)
      have hL : ∀ e ∈ L, e.length = k * c := fun e he =>
        h e (List.mem_cons_of_mem d he)
      have h1 : (d :: L).length * k = k + L.length * k := by
        rw [List.length_cons, Nat.succ_mul]; omega
      rw [h1]
      show toPixelsN c (k + L.length * k) (d ++ L.flatten) = _
      rw [toPixelsN_add, toPixelsN_append c k d L.flatten hd]
      have h2 : (d ++ L.flatten).drop (k * c) = L.flatten := by
        rw [← hd]; exact List.drop_left d L.flatten
      rw [h2, ih hL]
      rfl

theorem flatten_get_block {α : Type} (k : Nat) (L : List (List α))
    (h : ∀ d ∈ L, d.length = k) :
    ∀ (i : Nat) (hi : i < L.length),
      (L.flatten.drop (i * k)).take k = L.get ⟨i, hi⟩ := by
  induction L with
  | nil => intro i hi; exact absurd hi (by simp)
  | cons d L ih =>
      intro i hi
      have hd : d.length = k := h d (List.mem_cons_self d L)
      cases i with
      | zero =>
          show ((d ++ L.flatten).drop (0 * k)).take k = d
          rw [Nat.zero_mul, List.drop_zero,
            List.take_append_of_le_length (by rw [hd]),
            ← hd, List.take_length]
      | succ j =>
          have h1 : (j + 1) * k = k + j * k := by rw [Nat.succ_mul]; omega
          show ((d ++ L.flatten).drop ((j + 1) * k)).take k = L.get ⟨j, _⟩
          rw [h1, ← List.drop_drop, ← hd, List.drop_left, hd]
          exact ih (fun e he => h e (List.mem_cons_of_mem d he)) j
            (Nat.lt_of_succ_lt_succ hi)

/-! ## Unfolding lemmas for the quantization pipeline -/

theorem quantizeModel_rank3 (H W C : Nat) (d : List Nat) :
    quantizeModel ⟨[H, W, C], d⟩
      = ({ shape := [H, W],
           data := (toPixelsN C (H * W) d).map
             (nearestIdx ((dedupColors (toPixelsN C (H * W) d)).take 256)) },
         (dedupColors (toPixelsN C (H * W) d)).take 256) := by
  simp [quantizeModel]

theorem splitFrames_eq (H W n : Nat) (d : List Nat) :
    splitFrames ⟨[H, W], d⟩ n
      = (List.range n).map (fun i =>
          ({ shape := [H / n, W],
             data := (d.drop (i * (H / n * W))).take (H / n * W) }
            : NDArray)) := by
  simp [splitFrames]

/-- C5 (amended): for every valid (non-empty, shape-consistent, rank-3)
frame sequence, `save` builds one joint palette by concatenating all frames
along the row axis into a single composite, quantizing the composite once
to at most 256 colors with no dithering, and splitting the quantized
composite back into per-frame index maps that preserve the original frame
count, the original frame order — the i-th index map is exactly the i-th
original frame's pixels sent through the shared palette — and each frame's
original (rows, cols) dimensions (the channel axis is replaced by one
palette index per pixel). -/
theorem quantize_frames_spec (h w c : Nat) (frames : List NDArray)
    (hne : frames ≠ [])
    (hall : ∀ f ∈ frames, f.shape = [h, w, c] ∧ f.data.length = h * w * c) :
    ((quantizeModel (concatenateFrames frames)).2).length ≤ 256
      ∧ (_quantize_frames frames).1.length = frames.length
      ∧ (∀ q ∈ (_quantize_frames frames).1, q.shape = [h, w])
      ∧ (_quantize_frames frames).1.map NDArray.data
          = frames.map (fun f =>
              (toPixelsN c (h * w) f.data).map
                (nearestIdx (quantizeModel (concatenateFrames frames)).2)) := by
  have hnpos : 0 < frames.length := List.length_pos.mpr hne
  have hdiv : frames.length * h / frames.length = h :=
    Nat.mul_div_cancel_left h hnpos
  have hhead : (frames.map (fun f => f.shape.headD 0)).sum
      = frames.length * h := by
    have hrep : frames.map (fun f => f.shape.headD 0)
        = List.replicate frames.length h := by
      have hmem : ∀ b ∈ frames.map (fun f => f.shape.headD 0), b = h := by
        intro b hb
        rcases List.mem_map.mp hb with ⟨f, hf, rfl⟩
        rw [(hall f hf).1]
        rfl
      have := List.eq_replicate_of_mem hmem
      simpa using this
    rw [hrep, List.sum_replicate, smul_eq_mul]
  have htail : (frames.headD default).shape.tail = [w, c] := by
    cases frames with
    | nil => exact absurd rfl hne
    | cons f fs =>
        show f.shape.tail = [w, c]
        rw [(hall f (List.mem_cons_self f fs)).1]
        rfl
  have hmerged : concatenateFrames frames
      = ⟨[frames.length * h, w, c], (frames.map NDArray.data).flatten⟩ := by
    unfold concatenateFrames
    rw [hhead, htail]
  have hq1 : (quantizeModel (concatenateFrames frames)).1
      = ⟨[frames.length * h, w],
         (toPixelsN c (frames.length * h * w)
             (frames.map NDArray.data).flatten).map
           (nearestIdx (quantizeModel (concatenateFrames frames)).2)⟩ := by
    rw [hmerged, quantizeModel_rank3]
  have hq2 : (quantizeModel (concatenateFrames frames)).2
      = (dedupColors (toPixelsN c (frames.length * h * w)
          (frames.map NDArray.data).flatten)).take 256 := by
    rw [hmerged, quantizeModel_rank3]
  have hqsplit : (_quantize_frames frames).1
      = (List.range frames.length).map (fun i =>
          ({ shape := [h, w],
             data := (((toPixelsN c (frames.length * h * w)
                 (frames.map NDArray.data).flatten).map
                 (nearestIdx (quantizeModel
                   (concatenateFrames frames)).2)).drop
               (i * (h * w))).take (h * w) } : NDArray)) := by
    show splitFrames (quantizeModel (concatenateFrames frames)).1
        frames.length = _
    rw [hq1, splitFrames_eq, hdiv]
  have hPX : toPixelsN c (frames.length * h * w)
      (frames.map NDArray.data).flatten
      = ((frames.map NDArray.data).map (toPixelsN c (h * w))).flatten := by
    have h3 := toPixelsN_flatten c (h * w) (frames.map NDArray.data)
      (by
        intro d hd
        rcases List.mem_map.mp hd with ⟨f, hf, rfl⟩
        exact (hall f hf).2)
    rw [List.length_map, ← Nat.mul_assoc] at h3
    exact h3
  have hPXM : (toPixelsN c (frames.length * h * w)
        (frames.map NDArray.data).flatten).map
        (nearestIdx (quantizeModel (concatenateFrames frames)).2)
      = (frames.map (fun f => (toPixelsN c (h * w) f.data).map
          (nearestIdx (quantizeModel (concatenateFrames frames)).2))).flatten := by
    rw [hPX, List.map_flatten, List.map_map, List.map_map]
    rfl
  have hblocklen : ∀ d ∈ frames.map (fun f =>
      (toPixelsN c (h * w) f.data).map
        (nearestIdx (quantizeModel (concatenateFrames frames)).2)),
      d.length = h * w := by
    intro d hd
    rcases List.mem_map.mp hd with ⟨f, hf, rfl⟩
    rw [List.length_map, toPixelsN_length]
  refine ⟨?_, quantize_frames_length frames, ?_, ?_⟩
  · rw [hq2]
    exact List.length_take_le _ _
  · intro q hq
    rw [hqsplit] at hq
    rcases List.mem_map.mp hq with ⟨i, _, rfl⟩
    rfl
  · rw [hqsplit, List.map_map]
    simp only [hPXM]
    apply List.ext_get
    · simp
    · intro i h1 h2
      have hi : i < (frames.map (fun f => (toPixelsN c (h * w) f.data).map
          (nearestIdx (quantizeModel (concatenateFrames frames)).2))).length := by
        simpa using h2
      have hgb := flatten_get_block (h * w)
        (frames.map (fun f => (toPixelsN c (h * w) f.data).map
          (nearestIdx (quantizeModel (concatenateFrames frames)).2)))
        hblocklen i hi
      simpa using hgb

/-- C5 witness: two 1×2×3 frames quantize to a joint palette of at most
256 colors and two 1×2 index maps, each the nearest-palette image of the
corresponding original frame. -/
theorem quantize_frames_spec_witness :
    (([⟨[1, 2, 3], [1, 2, 3, 4, 5, 6]⟩,
        ⟨[1, 2, 3], [7, 8, 9, 1, 2, 3]⟩] : List NDArray) ≠ [])
    ∧ (∀ f ∈ ([⟨[1, 2, 3], [1, 2, 3, 4, 5, 6]⟩,
        ⟨[1, 2, 3], [7, 8, 9, 1, 2, 3]⟩] : List NDArray),
        f.shape = [1, 2, 3] ∧ f.data.length = 1 * 2 * 3)
    ∧ (((quantizeModel (concatenateFrames
          [⟨[1, 2, 3], [1, 2, 3, 4, 5, 6]⟩,
           ⟨[1, 2, 3], [7, 8, 9, 1, 2, 3]⟩])).2).length ≤ 256
      ∧ (_quantize_frames
          [⟨[1, 2, 3], [1, 2, 3, 4, 5, 6]⟩,
           ⟨[1, 2, 3], [7, 8, 9, 1, 2, 3]⟩]).1.length
          = ([⟨[1, 2, 3], [1, 2, 3, 4, 5, 6]⟩,
              ⟨[1, 2, 3], [7, 8, 9, 1, 2, 3]⟩] : List NDArray).length
      ∧ (∀ q ∈ (_quantize_frames
          [⟨[1, 2, 3], [1, 2, 3, 4, 5, 6]⟩,
           ⟨[1, 2, 3], [7, 8, 9, 1, 2, 3]⟩]).1, q.shape = [1, 2])
      ∧ (_quantize_frames
          [⟨[1, 2, 3], [1, 2, 3, 4, 5, 6]⟩,
           ⟨[1, 2, 3], [7, 8, 9, 1, 2, 3]⟩]).1.map NDArray.data
          = ([⟨[1, 2, 3], [1, 2, 3, 4, 5, 6]⟩,
              ⟨[1, 2, 3], [7, 8, 9, 1, 2, 3]⟩] : List NDArray).map
              (fun f => (toPixelsN 3 (1 * 2) f.data).map
                (nearestIdx (quantizeModel (concatenateFrames
                  [⟨[1, 2, 3], [1, 2, 3, 4, 5, 6]⟩,
                   ⟨[1, 2, 3], [7, 8, 9, 1, 2, 3]⟩])).2))) :=
  ⟨by decide, by decide,
   quantize_frames_spec 1 2 3
     [⟨[1, 2, 3], [1, 2, 3, 4, 5, 6]⟩, ⟨[1, 2, 3], [7, 8, 9, 1, 2, 3]⟩]
     (by decide) (by decide)⟩

end Gifcm
